import Mathlib

set_option maxRecDepth 8000

namespace LifeOS

/-- Strings of the JavaScript source are modelled as lists of characters. -/
abbrev Str := List Char

/-- Shorthand turning a Lean string literal into the character-list model. -/
def str (s : String) : Str := s.data

/-- The ASCII whitespace characters matched by the JavaScript regex class \s.
The Unicode space characters also matched by \s never occur in this code base
and are omitted. -/
def isJsSpace (c : Char) : Bool :=
  c == ' ' || c == '\t' || c == '\n' || c == '\r' || c == '\x0b' || c == '\x0c'

/-- JavaScript String.prototype.trim over the model. -/
def jsTrim (s : Str) : Str :=
  ((s.dropWhile isJsSpace).reverse.dropWhile isJsSpace).reverse

/-- Splits a list at the first occurrence of the pattern pat, returning the
part before the occurrence and the part after it, or none when pat never
occurs. This models the lazy group of the frontmatter regex of
parseNoteContent in useGoogleDrive.js. -/
def splitFirstOcc (pat : Str) : Str → Option (Str × Str)
  | [] => if pat.isPrefixOf ([] : Str) then some ([], []) else none
  | c :: rest =>
    if pat.isPrefixOf (c :: rest) then some ([], (c :: rest).drop pat.length)
    else (splitFirstOcc pat rest).map fun p => (c :: p.1, p.2)

/-- Scans for the first line start strictly after position zero (that is,
right after a newline) where keyc is a prefix, returning the text after that
occurrence of keyc. Models the scan of a multiline-anchored regex. -/
def findAfterNewline (keyc : Str) : Str → Option Str
  | [] => none
  | c :: rest =>
    if c = '\n' then
      if keyc.isPrefixOf rest then some (rest.drop keyc.length)
      else findAfterNewline keyc rest
    else findAfterNewline keyc rest

/-- Models getValue inside parseNoteContent: the first multiline-anchored
match of the key followed by a colon, then a greedy whitespace skip (which,
exactly as in the JavaScript regex, may cross line ends), then the rest of
that line, trimmed. -/
def getValue (fm : Str) (key : Str) : Option Str :=
  (if (key ++ [':']).isPrefixOf fm then some (fm.drop (key ++ [':']).length)
   else findAfterNewline (key ++ [':']) fm).map fun rest =>
    jsTrim ((rest.dropWhile isJsSpace).takeWhile fun c => c != '\n')

/-- A note as handled by useGoogleDrive.js. -/
structure Note where
  id : Str
  title : Str
  content : Str
  folder : Str
  createdAt : Str
  updatedAt : Str
  deriving DecidableEq

/-- The frontmatter opening line of the note wire format. -/
def headerOpen : Str := str "---\n"

/-- The frontmatter closing delimiter searched for by the lazy regex group. -/
def headerClose : Str := str "\n---\n"

/-- Models the regex match of parseNoteContent splitting raw content into the
frontmatter block and the body: the content must start with the opening
delimiter, the frontmatter is everything up to the first closing delimiter,
and one optional newline after the closer is consumed greedily. -/
def frontmatterMatch (raw : Str) : Option (Str × Str) :=
  if headerOpen.isPrefixOf raw then
    match splitFirstOcc headerClose (raw.drop 4) with
    | some (fm, rest) =>
      some (fm, match rest with
                | '\n' :: r => r
                | r => r)
    | none => none
  else none

/-- Field extraction with the JavaScript falsy default: a missing match and
the empty string both fall back to the default. -/
def fieldOr (fm : Str) (key : Str) (dflt : Str) : Str :=
  match getValue fm key with
  | some v => if v = [] then dflt else v
  | none => dflt

/-- parseNoteContent from useGoogleDrive.js. The current time, produced in
the source by new Date().toISOString(), is passed in as now. Empty raw
content is falsy in JavaScript, so the function returns none (null) for it. -/
def parseNoteContent (noteId : Str) (rawContent : Str) (now : Str) : Option Note :=
  if rawContent = [] then none
  else
    match frontmatterMatch rawContent with
    | none =>
      some { id := noteId, title := str "Untitled", content := rawContent,
             folder := str "root", createdAt := now, updatedAt := now }
    | some (fm, content) =>
      some { id := noteId,
             title := fieldOr fm (str "title") (str "Untitled"),
             content := content,
             folder := fieldOr fm (str "folder") (str "root"),
             createdAt := fieldOr fm (str "createdAt") now,
             updatedAt := fieldOr fm (str "updatedAt") now }

/-- The frontmatter block written by saveNote in useGoogleDrive.js. -/
def fmOf (title folder createdAt updatedAt : Str) : Str :=
  str "title: " ++ title ++ str "\nfolder: " ++ folder ++
  str "\ncreatedAt: " ++ createdAt ++ str "\nupdatedAt: " ++ updatedAt

/-- The note file content template of saveNote: frontmatter between the two
delimiters, a blank line, then the raw body. The folder falls back to root
when falsy (empty). -/
def serializeNoteContent (note : Note) : Str :=
  headerOpen ++
  fmOf note.title (if note.folder = [] then str "root" else note.folder)
       note.createdAt note.updatedAt ++
  str "\n---\n\n" ++ note.content

/-- JavaScript String.prototype.split with a one-character separator. -/
def splitOnChar (sep : Char) : Str → List Str
  | [] => [[]]
  | c :: rest =>
    if c = sep then [] :: splitOnChar sep rest
    else
      match splitOnChar sep rest with
      | h :: t => (c :: h) :: t
      | [] => [[c]]

/-- A raw result as returned by the MiniSearch collaborator: the stored
fields configured in useSearch. The ranking score is opaque floating point
in the source and is carried here as an uninterpreted integer, only ever
passed through. -/
structure RawResult where
  id : Str
  rtype : Option Str
  title : Option Str
  folder : Option Str
  date : Option Str
  priority : Option Str
  status : Option Str
  score : Int
  deriving DecidableEq

/-- The options object taken by the search function of useSearch. A missing
property is none. -/
structure SearchOptions where
  rtype : Option Str := none
  folder : Option Str := none
  priority : Option Str := none
  limit : Option Nat := none
  deriving DecidableEq

/-- A mapped result returned by search: the id is the raw id split on the
colon, taking element one, which in JavaScript is undefined (none) when the
raw id holds no colon. -/
structure SearchResult where
  id : Option Str
  rtype : Option Str
  title : Option Str
  folder : Option Str
  date : Option Str
  priority : Option Str
  status : Option Str
  score : Int
  deriving DecidableEq

/-- One truthiness-guarded filter clause of the search function: a missing or
empty option leaves the results alone. -/
def applyFilter (sel : RawResult → Option Str) (o : Option Str)
    (l : List RawResult) : List RawResult :=
  match o with
  | some t => if t = [] then l else l.filter fun r => sel r = some t
  | none => l

/-- The effective slice bound of search: options.limit when truthy, else 20. -/
def effLimit (o : SearchOptions) : Nat :=
  match o.limit with
  | some n => if n = 0 then 20 else n
  | none => 20

/-- The final mapping step of search: the raw id split on the colon, keeping
element one, which strips the type prefix. -/
def toSearchResult (r : RawResult) : SearchResult :=
  { id := (splitOnChar ':' r.id).get? 1,
    rtype := r.rtype, title := r.title, folder := r.folder, date := r.date,
    priority := r.priority, status := r.status, score := r.score }

/-- The search function of useSearch in part_003. The MiniSearch index is the
external collaborator, supplied as the rawSearch function. Filters apply for
truthy option values only (the empty string is falsy), the limit falls back
to 20 when absent or zero (falsy), and each surviving result id has its
type prefix removed by split-colon-index-one. -/
def search (rawSearch : Str → List RawResult) (query : Str) (o : SearchOptions) :
    List SearchResult :=
  if jsTrim query = [] then []
  else
    ((applyFilter RawResult.priority o.priority
      (applyFilter RawResult.folder o.folder
        (applyFilter RawResult.rtype o.rtype (rawSearch query)))).take
          (effLimit o)).map toSearchResult

/-- An internal index id of the shape built by useSearch: a colon-free type
tag, a colon, then a colon-free entity key. -/
def validRawId (s : Str) : Prop :=
  ∃ t k, (':' ∉ t) ∧ (':' ∉ k) ∧ s = t ++ ':' :: k

/-- A task as handled by App.jsx and Tasks.jsx. Optional fields are dropped
by JSON.stringify when undefined, hence Option. -/
structure Task where
  id : Str
  title : Str
  description : Option Str := none
  priority : Str
  status : Str
  completed : Bool := false
  dueDate : Option Str := none
  createdAt : Str
  completedAt : Option Str := none
  deriving DecidableEq

/-- JSON string escaping for the serializer model. -/
def jsonEscapeChar (c : Char) : Str :=
  if c = '"' then ['\\', '"']
  else if c = '\\' then ['\\', '\\']
  else if c = '\n' then ['\\', 'n']
  else if c = '\r' then ['\\', 'r']
  else if c = '\t' then ['\\', 't']
  else [c]

/-- A JSON string literal for the serializer model. -/
def jsonStr (s : Str) : Str := '"' :: (s.map jsonEscapeChar).flatten ++ ['"']

/-- An optional JSON member, omitted when the value is undefined. -/
def jsonOptMember (name : Str) (v : Option Str) : Str :=
  match v with
  | some s => ',' :: jsonStr name ++ ':' :: jsonStr s
  | none => []

/-- One task rendered as a JSON object. Models the builtin JSON.stringify on
the task records built by addTask; the member order follows the construction
order there. The claims depend only on equality of serializations, never on
the exact rendered text. -/
def taskJson (t : Task) : Str :=
  str "\x7b" ++ jsonStr (str "id") ++ ':' :: jsonStr t.id
  ++ ',' :: jsonStr (str "title") ++ ':' :: jsonStr t.title
  ++ jsonOptMember (str "description") t.description
  ++ ',' :: jsonStr (str "priority") ++ ':' :: jsonStr t.priority
  ++ ',' :: jsonStr (str "status") ++ ':' :: jsonStr t.status
  ++ ',' :: jsonStr (str "completed")
  ++ ':' :: (if t.completed then str "true" else str "false")
  ++ jsonOptMember (str "dueDate") t.dueDate
  ++ ',' :: jsonStr (str "createdAt") ++ ':' :: jsonStr t.createdAt
  ++ jsonOptMember (str "completedAt") t.completedAt
  ++ str "\x7d"

/-- JSON.stringify applied to a task list, as used by App.jsx for the
original-tasks comparison snapshot. -/
def stringifyTasks (ts : List Task) : Str :=
  '[' :: List.intercalate [','] (ts.map taskJson) ++ [']']

/-- The sync status values used by App.jsx. -/
inductive SyncStatus where
  | idle | syncing | synced | error
  deriving DecidableEq

/-- A journal entry as held in the journalEntries map of App.jsx. -/
structure JournalEntry where
  date : Str
  content : Str
  lastModified : Str
  deriving DecidableEq

/-- Lookup in an association list keyed by strings, the model of a plain
JavaScript object used as a map. -/
def lookupA {α : Type} : List (Str × α) → Str → Option α
  | [], _ => none
  | (k2, v) :: rest, k => if k2 = k then some v else lookupA rest k

/-- Keyed insert-or-replace in an association list, the model of assigning a
property on a JavaScript object. -/
def upsertA {α : Type} : List (Str × α) → Str → α → List (Str × α)
  | [], k, v => [(k, v)]
  | (k2, v2) :: rest, k, v =>
    if k2 = k then (k, v) :: rest else (k2, v2) :: upsertA rest k v

/-- Adding to a JavaScript Set (insertion order kept, duplicates ignored). -/
def setAdd (l : List Str) (k : Str) : List Str :=
  if k ∈ l then l else l ++ [k]

/-- The remote operations observed in a run, used to state that a code path
attempts no network call. -/
inductive RemoteCall where
  | saveJournalCall (date : Str) (content : Str)
  | saveTasksCall (tasks : List Task)
  | loadJournalCall (date : Str)
  | loadTasksCall
  deriving DecidableEq

/-- The Google Drive collaborator as seen from App.jsx: each operation either
succeeds with a value or fails with an error message. -/
structure Remote where
  saveJournal : Str → Str → Except Str Unit
  saveTasks : List Task → Except Str Unit
  loadJournal : Str → Except Str (Option Str)
  loadTasks : Except Str (Option (List Task))
  initFolders : Except Str Unit
  listJournals : Except Str (List (Str × Str))
  listNotes : Except Str (List Note)

/-- The sync-relevant state of the App component: entity state, dirty
tracking, original snapshots and pending debounce timers. Timers carry the
argument their callback would fire with. -/
structure AppState where
  isAuthenticated : Bool
  isDemo : Bool
  journalEntries : List (Str × JournalEntry)
  tasks : List Task
  notes : List Note
  syncStatus : SyncStatus
  syncError : Option Str
  dataLoaded : Bool
  dirtyJournals : List Str
  tasksDirty : Bool
  originalJournalContent : List (Str × Str)
  originalTasks : Option Str
  journalTimers : List (Str × Str)
  tasksTimer : Option (List Task)
  deriving DecidableEq

/-- updateJournalEntry from App.jsx: always updates the in-memory entry, then
compares against the original snapshot (empty when absent); when unchanged it
returns without dirtying or scheduling, otherwise it marks the date dirty and
restarts the per-date debounce timer. -/
def updateJournalEntry (s : AppState) (date content now : Str) : AppState :=
  let s1 := { s with journalEntries := upsertA s.journalEntries date ⟨date, content, now⟩ }
  let original := (lookupA s.originalJournalContent date).getD []
  if content = original then s1
  else
    { s1 with dirtyJournals := setAdd s1.dirtyJournals date,
              syncStatus := SyncStatus.syncing,
              journalTimers := upsertA s1.journalTimers date content }

/-- syncTasksToDriver from App.jsx: compares the serialized new list against
the original snapshot; when equal it is a no-op, otherwise it sets the tasks
dirty flag and restarts the shared tasks debounce timer. -/
def syncTasksToDriver (s : AppState) (newTasks : List Task) : AppState :=
  if some (stringifyTasks newTasks) = s.originalTasks then s
  else
    { s with tasksDirty := true, syncStatus := SyncStatus.syncing,
             tasksTimer := some newTasks }

/-- The task input supplied by the task form. -/
structure TaskInput where
  title : Str
  description : Option Str := none
  priority : Str
  status : Str
  dueDate : Option Str := none
  deriving DecidableEq

/-- The task record built by addTask: a time-based id, the form fields,
completed false and the creation timestamp. -/
def mkNewTask (input : TaskInput) (nowId nowIso : Str) : Task :=
  { id := nowId, title := input.title, description := input.description,
    priority := input.priority, status := input.status, completed := false,
    dueDate := input.dueDate, createdAt := nowIso }

/-- addTask from App.jsx: prepends the new task and feeds the new list to
syncTasksToDriver. -/
def addTask (s : AppState) (input : TaskInput) (nowId nowIso : Str) : AppState :=
  let newTask := mkNewTask input nowId nowIso
  let newTasks := newTask :: s.tasks
  syncTasksToDriver { s with tasks := newTasks } newTasks

/-- saveTasksToDrive from App.jsx, the debounced tasks save callback: demo or
unauthenticated users return before any remote call; otherwise the drive save
runs and, on success, the original snapshot is refreshed and the dirty flag
cleared. -/
def saveTasksToDrive (s : AppState) (tasksToSave : List Task) (remote : Remote) :
    AppState × List RemoteCall :=
  if !s.isAuthenticated || s.isDemo then (s, [])
  else
    match remote.saveTasks tasksToSave with
    | Except.ok _ =>
      ({ s with originalTasks := some (stringifyTasks tasksToSave),
                tasksDirty := false, syncStatus := SyncStatus.synced },
       [RemoteCall.saveTasksCall tasksToSave])
    | Except.error _ =>
      ({ s with syncStatus := SyncStatus.error },
       [RemoteCall.saveTasksCall tasksToSave])

/-- The tasks debounce timer firing: runs saveTasksToDrive with the list the
timer was scheduled with. -/
def fireTasksTimer (s : AppState) (remote : Remote) : AppState × List RemoteCall :=
  match s.tasksTimer with
  | none => (s, [])
  | some ts => saveTasksToDrive { s with tasksTimer := none } ts remote

/-- saveJournalToDrive from App.jsx, the debounced journal save callback. -/
def saveJournalToDrive (s : AppState) (date content : Str) (remote : Remote) :
    AppState × List RemoteCall :=
  if !s.isAuthenticated || s.isDemo then (s, [])
  else
    match remote.saveJournal date content with
    | Except.ok _ =>
      ({ s with originalJournalContent := upsertA s.originalJournalContent date content,
                dirtyJournals := s.dirtyJournals.filter fun d => d != date,
                syncStatus := SyncStatus.synced },
       [RemoteCall.saveJournalCall date content])
    | Except.error _ =>
      ({ s with syncStatus := SyncStatus.error },
       [RemoteCall.saveJournalCall date content])

/-- The journal loop of forceSync: saves each dirty date that has an entry,
updating the original snapshot after each success, and stops at the first
save that throws. Returns the updated snapshots, the attempted remote calls
in order, and the error if one was thrown. -/
def forceSyncJournals (remote : Remote) (entries : List (Str × JournalEntry)) :
    List Str → List (Str × Str) → List (Str × Str) × List RemoteCall × Option Str
  | [], orig => (orig, [], none)
  | d :: rest, orig =>
    match lookupA entries d with
    | none => forceSyncJournals remote entries rest orig
    | some e =>
      match remote.saveJournal d e.content with
      | Except.ok _ =>
        let r := forceSyncJournals remote entries rest (upsertA orig d e.content)
        (r.1, RemoteCall.saveJournalCall d e.content :: r.2.1, r.2.2)
      | Except.error err =>
        (orig, [RemoteCall.saveJournalCall d e.content], some err)

/-- forceSync from App.jsx: demo or unauthenticated users only set the status
to synced; otherwise all pending debounce timers are cancelled, every dirty
journal date is saved sequentially inside one try block, the dirty set is
cleared, then the tasks are saved when dirty; any thrown error lands in the
single catch which sets the error status. -/
def forceSync (s : AppState) (remote : Remote) : AppState × List RemoteCall :=
  if !s.isAuthenticated || s.isDemo then
    ({ s with syncStatus := SyncStatus.synced }, [])
  else
    let s0 := { s with syncStatus := SyncStatus.syncing,
                       journalTimers := [], tasksTimer := none }
    match forceSyncJournals remote s.journalEntries s.dirtyJournals s.originalJournalContent with
    | (orig2, log, some _) =>
      ({ s0 with originalJournalContent := orig2, syncStatus := SyncStatus.error }, log)
    | (orig2, log, none) =>
      let s1 := { s0 with originalJournalContent := orig2, dirtyJournals := [] }
      if s.tasksDirty then
        match remote.saveTasks s.tasks with
        | Except.ok _ =>
          ({ s1 with originalTasks := some (stringifyTasks s.tasks),
                     tasksDirty := false, syncStatus := SyncStatus.synced },
           log ++ [RemoteCall.saveTasksCall s.tasks])
        | Except.error _ =>
          ({ s1 with syncStatus := SyncStatus.error },
           log ++ [RemoteCall.saveTasksCall s.tasks])
      else ({ s1 with syncStatus := SyncStatus.synced }, log)

/-- refreshSingleEntry from App.jsx: returns the new state, the returned
content and the attempted remote calls. A dirty date skips the fetch and
returns the in-memory content, with the JavaScript falsy fallback turning
empty content into null. -/
def refreshSingleEntry (s : AppState) (date now : Str) (remote : Remote) :
    AppState × Option Str × List RemoteCall :=
  if !s.isAuthenticated || s.isDemo then (s, none, [])
  else if date ∈ s.dirtyJournals then
    (s,
     match lookupA s.journalEntries date with
     | some e => if e.content = [] then none else some e.content
     | none => none,
     [])
  else
    let s1 := { s with syncStatus := SyncStatus.syncing }
    match remote.loadJournal date with
    | Except.error e =>
      ({ s1 with syncError := some e, syncStatus := SyncStatus.error }, none,
       [RemoteCall.loadJournalCall date])
    | Except.ok none =>
      ({ s1 with syncStatus := SyncStatus.synced }, none,
       [RemoteCall.loadJournalCall date])
    | Except.ok (some c) =>
      ({ s1 with journalEntries := upsertA s1.journalEntries date ⟨date, c, now⟩,
                 originalJournalContent := upsertA s1.originalJournalContent date c,
                 syncStatus := SyncStatus.synced },
       some c, [RemoteCall.loadJournalCall date])

/-- refreshTasks from App.jsx: when the tasks are dirty the fetch is skipped
and the local list returned unchanged. -/
def refreshTasks (s : AppState) (remote : Remote) :
    AppState × Option (List Task) × List RemoteCall :=
  if !s.isAuthenticated || s.isDemo then (s, none, [])
  else if s.tasksDirty then (s, some s.tasks, [])
  else
    let s1 := { s with syncStatus := SyncStatus.syncing }
    match remote.loadTasks with
    | Except.error e =>
      ({ s1 with syncError := some e, syncStatus := SyncStatus.error }, none,
       [RemoteCall.loadTasksCall])
    | Except.ok none =>
      ({ s1 with syncStatus := SyncStatus.synced }, some [], [RemoteCall.loadTasksCall])
    | Except.ok (some ts) =>
      ({ s1 with tasks := ts, originalTasks := some (stringifyTasks ts),
                 syncStatus := SyncStatus.synced },
       some ts, [RemoteCall.loadTasksCall])

/-- The name.replace of loadDataFromDrive, removing the first occurrence of
the .md suffix marker. -/
def stripMd (name : Str) : Str :=
  match splitFirstOcc (str ".md") name with
  | some (a, b) => a ++ b
  | none => name

/-- The journal download loop of loadDataFromDrive: downloads each listed
entry, keeping truthy content in the journal map and seeding the original
snapshot, and stops at the first error. -/
def hydrateJournalsLoop (remote : Remote) :
    List (Str × Str) → List (Str × JournalEntry) → List (Str × Str) →
    List (Str × JournalEntry) × List (Str × Str) × Option Str
  | [], jdata, orig => (jdata, orig, none)
  | (name, mt) :: rest, jdata, orig =>
    let date := stripMd name
    match remote.loadJournal date with
    | Except.error e => (jdata, orig, some e)
    | Except.ok none => hydrateJournalsLoop remote rest jdata orig
    | Except.ok (some c) =>
      if c = [] then hydrateJournalsLoop remote rest jdata orig
      else
        hydrateJournalsLoop remote rest (upsertA jdata date ⟨date, c, mt⟩)
          (upsertA orig date c)

/-- The catch block of loadDataFromDrive: surface the error and still mark
the load as attempted. -/
def hydrateFail (s : AppState) (e : Str) : AppState :=
  { s with syncError := some e, syncStatus := SyncStatus.error, dataLoaded := true }

/-- loadDataFromDrive from App.jsx: session hydration. Runs only for an
authenticated non-demo user whose data is not yet loaded; on any failure the
catch still sets dataLoaded, keeping partial effects already applied. -/
def loadDataFromDrive (s : AppState) (remote : Remote) : AppState :=
  if !s.isAuthenticated || s.isDemo || s.dataLoaded then s
  else
    let s0 := { s with syncStatus := SyncStatus.syncing }
    match remote.initFolders with
    | Except.error e => hydrateFail s0 e
    | Except.ok _ =>
      match remote.listJournals with
      | Except.error e => hydrateFail s0 e
      | Except.ok entries =>
        match hydrateJournalsLoop remote entries [] s0.originalJournalContent with
        | (_, orig2, some e) => hydrateFail { s0 with originalJournalContent := orig2 } e
        | (jdata, orig2, none) =>
          let s1 := { s0 with originalJournalContent := orig2 }
          let s1 := if jdata = [] then s1 else { s1 with journalEntries := jdata }
          match remote.loadTasks with
          | Except.error e => hydrateFail s1 e
          | Except.ok tasksOpt =>
            let s2 :=
              match tasksOpt with
              | some ts => { s1 with tasks := ts, originalTasks := some (stringifyTasks ts) }
              | none => s1
            match remote.listNotes with
            | Except.error e => hydrateFail s2 e
            | Except.ok notesData =>
              let s3 := if notesData = [] then s2 else { s2 with notes := notesData }
              { s3 with dataLoaded := true, syncStatus := SyncStatus.synced }

/-- Program points of one saveJournalEntry (or saveNote) call for a fixed
key, one point per stretch of synchronous code between awaits in
useGoogleDrive.js. -/
inductive SavePC where
  | notStarted
  | awaitingPending (j : Nat)
  | finding
  | creating
  | updating (fid : Nat)
  | done
  deriving DecidableEq

/-- One in-flight saveJournalEntry call: its content argument, its program
point and its local fileId variable. -/
structure SaveProc where
  content : Str
  pc : SavePC
  fileId : Option Nat
  deriving DecidableEq

/-- The shared state of the drive hook for one key: the processes, the
pendingSaves slot, the fileIdCache slot, the remote files bearing the name of
the key (id and content each) and the id supply. -/
structure DriveState where
  procs : List SaveProc
  pending : Option Nat
  cache : Option Nat
  files : List (Nat × Str)
  nextId : Nat
  deriving DecidableEq

/-- Event-loop events for the save model: a call starting, a findFile
response arriving, a createFile or updateFile response arriving, and a
process resuming after the promise it awaited settled. -/
inductive SaveEvent where
  | start (i : Nat)
  | resolveFind (i : Nat)
  | resolveCreate (i : Nat)
  | resolveUpdate (i : Nat)
  | resumePending (i : Nat)
  deriving DecidableEq

/-- The synchronous stretch of saveJournalEntry that builds the save promise:
with a known file id it dispatches updateFile, otherwise createFile, and in
the same stretch registers the promise in pendingSaves. -/
def creationBlock (d : DriveState) (i : Nat) (p : SaveProc) : DriveState :=
  match p.fileId with
  | some fid =>
    { d with procs := d.procs.set i { p with pc := SavePC.updating fid },
             pending := some i }
  | none =>
    { d with procs := d.procs.set i { p with pc := SavePC.creating },
             pending := some i }

/-- One event of the save model. An event whose precondition does not hold
leaves the state unchanged. The start event runs saveJournalEntry up to its
first suspension: it awaits a registered pending save if present, otherwise
reads the fileIdCache and either proceeds straight to the write dispatch (on
a cache hit) or suspends awaiting findFile. The find response reads the
current remote file list (first match or none) exactly as the Drive query
does. The create response appends a fresh remote file, caches its id, clears
the pendingSaves slot (the finally clause deletes the key unconditionally)
and finishes. A resumed waiter re-reads the cache and continues the same
way the start path does, without re-checking pendingSaves. -/
def driveStep (d : DriveState) (ev : SaveEvent) : DriveState :=
  match ev with
  | SaveEvent.start i =>
    match d.procs.get? i with
    | some p =>
      match p.pc with
      | SavePC.notStarted =>
        match d.pending with
        | some j =>
          { d with procs := d.procs.set i { p with pc := SavePC.awaitingPending j } }
        | none =>
          let p2 := { p with fileId := d.cache }
          match d.cache with
          | some _ => creationBlock d i p2
          | none => { d with procs := d.procs.set i { p2 with pc := SavePC.finding } }
      | _ => d
    | none => d
  | SaveEvent.resolveFind i =>
    match d.procs.get? i with
    | some p =>
      match p.pc with
      | SavePC.finding =>
        match d.files.head? with
        | some f =>
          creationBlock { d with cache := some f.1 } i { p with fileId := some f.1 }
        | none => creationBlock d i p
      | _ => d
    | none => d
  | SaveEvent.resolveCreate i =>
    match d.procs.get? i with
    | some p =>
      match p.pc with
      | SavePC.creating =>
        { d with files := d.files ++ [(d.nextId, p.content)],
                 nextId := d.nextId + 1,
                 cache := some d.nextId,
                 pending := none,
                 procs := d.procs.set i { p with pc := SavePC.done } }
      | _ => d
    | none => d
  | SaveEvent.resolveUpdate i =>
    match d.procs.get? i with
    | some p =>
      match p.pc with
      | SavePC.updating fid =>
        { d with files := d.files.map fun f => if f.1 = fid then (f.1, p.content) else f,
                 pending := none,
                 procs := d.procs.set i { p with pc := SavePC.done } }
      | _ => d
    | none => d
  | SaveEvent.resumePending i =>
    match d.procs.get? i with
    | some p =>
      match p.pc with
      | SavePC.awaitingPending j =>
        match d.procs.get? j with
        | some q =>
          match q.pc with
          | SavePC.done =>
            let p2 := { p with fileId := d.cache }
            match d.cache with
            | some _ => creationBlock d i p2
            | none => { d with procs := d.procs.set i { p2 with pc := SavePC.finding } }
          | _ => d
        | none => d
      | _ => d
    | none => d

/-- Running a schedule of events from a state. -/
def runSaves (d : DriveState) (evs : List SaveEvent) : DriveState :=
  evs.foldl driveStep d

/-- Two concurrent save calls for one key with no pre-existing remote file. -/
def raceInit : DriveState :=
  { procs := [{ content := str "c1", pc := SavePC.notStarted, fileId := none },
              { content := str "c2", pc := SavePC.notStarted, fileId := none }],
    pending := none, cache := none, files := [], nextId := 0 }

/-- The interleaving in which the second call arrives while the first is
still awaiting its findFile probe, before the first registers its promise in
pendingSaves. -/
def raceSchedule : List SaveEvent :=
  [SaveEvent.start 0, SaveEvent.start 1,
   SaveEvent.resolveFind 0, SaveEvent.resolveFind 1,
   SaveEvent.resolveCreate 0, SaveEvent.resolveCreate 1]

/-- Executable wellformedness of a frontmatter header field: nonempty,
newline free, and neither starting nor ending with regex whitespace. -/
def wfFieldB (f : Str) : Bool :=
  (match f with
   | [] => false
   | c :: _ => !isJsSpace c) &&
  f.all (fun c => c != '\n') &&
  (match f.getLast? with
   | some c => !isJsSpace c
   | none => false)

/-- A raw index result used in the search witnesses. -/
def w10raw : RawResult :=
  { id := str "note:abc", rtype := some (str "note"), title := some (str "Hello"),
    folder := some (str "root"), date := none, priority := none, status := none,
    score := 5 }

/-- A one-result collaborator index used in the search witnesses. -/
def rawW10 : Str → List RawResult := fun _ => [w10raw]

/-- Search options carrying the falsy zero limit. -/
def cexOptions10 : SearchOptions := { limit := some 0 }

/-- A remote whose every operation succeeds and finds nothing. -/
def remoteAllOk : Remote :=
  { saveJournal := fun _ _ => Except.ok (),
    saveTasks := fun _ => Except.ok (),
    loadJournal := fun _ => Except.ok none,
    loadTasks := Except.ok none,
    initFolders := Except.ok (),
    listJournals := Except.ok [],
    listNotes := Except.ok [] }

/-- A remote whose every write fails with a network error. -/
def remoteSavesFail : Remote :=
  { remoteAllOk with
    saveJournal := fun _ _ => Except.error (str "network"),
    saveTasks := fun _ => Except.error (str "network") }

/-- An authenticated, non-demo state with empty collections. -/
def baseState : AppState :=
  { isAuthenticated := true, isDemo := false, journalEntries := [], tasks := [],
    notes := [], syncStatus := SyncStatus.idle, syncError := none,
    dataLoaded := false, dirtyJournals := [], tasksDirty := false,
    originalJournalContent := [], originalTasks := none, journalTimers := [],
    tasksTimer := none }

/-- A state whose single dirty journal entry holds empty content: the user
has deleted the whole text of the entry, which is not yet flushed. -/
def emptyDirtyState : AppState :=
  { baseState with
    journalEntries := [(str "2024-01-15",
      { date := str "2024-01-15", content := [], lastModified := str "M" })],
    dirtyJournals := [str "2024-01-15"],
    originalJournalContent := [(str "2024-01-15", str "old text")],
    dataLoaded := true }

/-- The task input of the end-to-end scenario of the spec. -/
def buyMilk : TaskInput :=
  { title := str "Buy milk", priority := str "low", status := str "backlog" }

/-- A demo-identity state with an empty task list and a matching snapshot. -/
def demoState : AppState :=
  { baseState with
    isDemo := true, dataLoaded := true,
    originalTasks := some (stringifyTasks []) }

/-- A state with two dirty journal dates and dirty tasks. -/
def twoDirtyState : AppState :=
  { baseState with
    journalEntries :=
      [(str "2024-01-15",
        { date := str "2024-01-15", content := str "A text", lastModified := str "M" }),
       (str "2024-01-16",
        { date := str "2024-01-16", content := str "B text", lastModified := str "M" })],
    dirtyJournals := [str "2024-01-15", str "2024-01-16"],
    tasksDirty := true,
    tasks := [mkNewTask buyMilk (str "1") (str "T0")],
    dataLoaded := true }

/-- A state with one dirty journal date and dirty tasks. -/
def oneDirtyState : AppState :=
  { baseState with
    journalEntries :=
      [(str "2024-01-15",
        { date := str "2024-01-15", content := str "A text", lastModified := str "M" })],
    dirtyJournals := [str "2024-01-15"],
    tasksDirty := true,
    tasks := [mkNewTask buyMilk (str "1") (str "T0")],
    dataLoaded := true }

/-- A state whose original snapshots match the updates of the no-op
witness. -/
def snapState : AppState :=
  { baseState with
    originalJournalContent := [(str "2024-01-15", str "same text")],
    originalTasks := some (stringifyTasks [mkNewTask buyMilk (str "1") (str "T0")]),
    tasks := [mkNewTask buyMilk (str "1") (str "T0")],
    dataLoaded := true }

/-- A note with well-formed header fields for the round-trip witness; its
body embeds the header delimiter sequence. -/
def wfNote : Note :=
  { id := str "n1", title := str "Hello World",
    content := str "a---\nbody --- text",
    folder := str "Projects", createdAt := str "2024-01-01T00:00:00.000Z",
    updatedAt := str "2024-01-02T00:00:00.000Z" }

/- From here on: the lemmas and the claim theorems. -/

theorem splitOnChar_not_mem {c : Char} {s : Str} (h : c ∉ s) :
    splitOnChar c s = [s] := by
  induction s with
  | nil => rfl
  | cons a rest ih =>
    have hac : ¬ a = c := fun e => h (by simp [e])
    have hcr : c ∉ rest := fun hm => h (List.mem_cons_of_mem _ hm)
    simp [splitOnChar, hac, ih hcr]

theorem splitOnChar_split {t k : Str} {c : Char} (ht : c ∉ t) (hk : c ∉ k) :
    splitOnChar c (t ++ c :: k) = [t, k] := by
  induction t with
  | nil => simp [splitOnChar, splitOnChar_not_mem hk]
  | cons a t2 ih =>
    have hac : ¬ a = c := fun e => ht (by simp [e])
    have ht2 : c ∉ t2 := fun hm => ht (List.mem_cons_of_mem _ hm)
    simp [splitOnChar, hac, ih ht2]

theorem splitOnChar_get_one {t k : Str} {c : Char} (ht : c ∉ t) (hk : c ∉ k) :
    (splitOnChar c (t ++ c :: k)).get? 1 = some k := by
  rw [splitOnChar_split ht hk]; rfl

theorem length_take_map_le {α β : Type} (f : α → β) (l : List α) (n : Nat) :
    ((l.take n).map f).length ≤ n := by
  rw [List.length_map, List.length_take]
  exact min_le_left _ _

theorem mem_applyFilter {sel : RawResult → Option Str} {o : Option Str}
    {l : List RawResult} {r : RawResult} (h : r ∈ applyFilter sel o l) :
    r ∈ l := by
  cases o with
  | none => exact h
  | some t =>
    by_cases ht : t = []
    · simpa [applyFilter, ht] using h
    · have h2 : r ∈ l.filter fun r => decide (sel r = some t) := by
        simpa [applyFilter, ht] using h
      exact (List.mem_filter.mp h2).1

theorem lookupA_upsertA_same {α : Type} (m : List (Str × α)) (k : Str) (v : α) :
    lookupA (upsertA m k v) k = some v := by
  induction m with
  | nil => simp [upsertA, lookupA]
  | cons p rest ih =>
    obtain ⟨k2, v2⟩ := p
    by_cases hk : k2 = k
    · simp [upsertA, hk, lookupA]
    · simp [upsertA, hk, lookupA, ih]

theorem lookupA_upsertA_ne {α : Type} (m : List (Str × α)) (k k2 : Str) (v : α)
    (h : k ≠ k2) : lookupA (upsertA m k v) k2 = lookupA m k2 := by
  induction m with
  | nil => simp [upsertA, lookupA, h]
  | cons p rest ih =>
    obtain ⟨k3, v3⟩ := p
    by_cases hk : k3 = k
    · subst hk
      simp [upsertA, lookupA, h]
    · simp [upsertA, hk, lookupA, ih]

theorem forceSyncJournals_notMem (remote : Remote)
    (entries : List (Str × JournalEntry)) :
    ∀ (dates : List Str) (orig : List (Str × Str)) (d : Str), d ∉ dates →
      lookupA (forceSyncJournals remote entries dates orig).1 d =
        lookupA orig d := by
  intro dates
  induction dates with
  | nil => intro orig d _; rfl
  | cons d0 rest ih =>
    intro orig d hd
    have hne : d0 ≠ d := fun e => hd (by simp [e])
    have hdrest : d ∉ rest := fun hm => hd (List.mem_cons_of_mem _ hm)
    cases hl : lookupA entries d0 with
    | none =>
      have heq : forceSyncJournals remote entries (d0 :: rest) orig =
          forceSyncJournals remote entries rest orig := by
        simp only [forceSyncJournals, hl]
      rw [heq]
      exact ih orig d hdrest
    | some e0 =>
      cases hs : remote.saveJournal d0 e0.content with
      | ok u =>
        have heq : (forceSyncJournals remote entries (d0 :: rest) orig).1 =
            (forceSyncJournals remote entries rest
              (upsertA orig d0 e0.content)).1 := by
          simp only [forceSyncJournals, hl, hs]
        rw [heq, ih _ d hdrest, lookupA_upsertA_ne _ d0 d _ hne]
      | error err =>
        have heq : (forceSyncJournals remote entries (d0 :: rest) orig).1 = orig := by
          simp only [forceSyncJournals, hl, hs]
        rw [heq]

theorem forceSyncJournals_ok (remote : Remote)
    (entries : List (Str × JournalEntry)) :
    ∀ (dates : List Str) (orig : List (Str × Str)),
      (∀ d e, d ∈ dates → lookupA entries d = some e →
        remote.saveJournal d e.content = Except.ok ()) →
      dates.Nodup →
      (forceSyncJournals remote entries dates orig).2.2 = none ∧
      (∀ d e, d ∈ dates → lookupA entries d = some e →
        lookupA (forceSyncJournals remote entries dates orig).1 d =
          some e.content) := by
  intro dates
  induction dates with
  | nil =>
    intro orig _ _
    exact ⟨rfl, by intro d e hd; cases hd⟩
  | cons d0 rest ih =>
    intro orig hok hnd
    rcases List.nodup_cons.mp hnd with ⟨hd0, hndr⟩
    cases hl : lookupA entries d0 with
    | none =>
      have heq : forceSyncJournals remote entries (d0 :: rest) orig =
          forceSyncJournals remote entries rest orig := by
        simp only [forceSyncJournals, hl]
      obtain ⟨h1, h2⟩ := ih orig
        (fun d e hd he => hok d e (List.mem_cons_of_mem _ hd) he) hndr
      rw [heq]
      refine ⟨h1, ?_⟩
      intro d e hd he
      rcases List.mem_cons.mp hd with rfl | hdr
      · rw [hl] at he; cases he
      · exact h2 d e hdr he
    | some e0 =>
      have hs := hok d0 e0 (List.mem_cons_self _ _) hl
      obtain ⟨h1, h2⟩ := ih (upsertA orig d0 e0.content)
        (fun d e hd he => hok d e (List.mem_cons_of_mem _ hd) he) hndr
      have heq2 : (forceSyncJournals remote entries (d0 :: rest) orig).2.2 =
          (forceSyncJournals remote entries rest
            (upsertA orig d0 e0.content)).2.2 := by
        simp only [forceSyncJournals, hl, hs]
      have heq1 : (forceSyncJournals remote entries (d0 :: rest) orig).1 =
          (forceSyncJournals remote entries rest
            (upsertA orig d0 e0.content)).1 := by
        simp only [forceSyncJournals, hl, hs]
      refine ⟨by rw [heq2]; exact h1, ?_⟩
      intro d e hd he
      rcases List.mem_cons.mp hd with rfl | hdr
      · rw [hl] at he
        injection he with he2
        subst he2
        rw [heq1, forceSyncJournals_notMem remote entries rest _ d hd0]
        exact lookupA_upsertA_same _ _ _
      · rw [heq1]
        exact h2 d e hdr he

/-- Claim C1 (code-bug evidence): in the modelled interleaving, two
concurrent save calls for the same key with no pre-existing remote file both
pass the pendingSaves check before either has registered its promise (the
registration happens only after the awaited findFile probe), so both dispatch
createFile and two remote files exist for the key afterwards, where the claim
promises exactly one. -/
theorem claim_c1_race_two_files :
    (runSaves raceInit raceSchedule).files.length = 2 ∧
    ∀ p ∈ (runSaves raceInit raceSchedule).procs, p.pc = SavePC.done := by
  decide

/-- Claim C9 counterexample: empty raw content lacks the frontmatter header,
yet parseNoteContent rejects it with none (empty content is falsy in
JavaScript) instead of returning the defaulted note the claim demands. -/
theorem claim_c9_cex :
    parseNoteContent (str "n1") [] (str "2024-01-01T00:00:00.000Z") ≠
      some { id := str "n1", title := str "Untitled", content := [],
             folder := str "root", createdAt := str "2024-01-01T00:00:00.000Z",
             updatedAt := str "2024-01-01T00:00:00.000Z" } := by
  decide

/-- Claim C9 (amended): for every nonempty raw content on which the
frontmatter pattern does not match, parseNoteContent does not reject: it
returns a note whose title defaults to Untitled, whose folder defaults to
root, whose timestamps default to the current time, and whose content is the
entire raw content; empty (falsy) raw content is instead rejected with
none. -/
theorem claim_c9_amended (noteId rawContent now : Str)
    (hne : rawContent ≠ [])
    (hnofm : frontmatterMatch rawContent = none) :
    parseNoteContent noteId rawContent now =
      some { id := noteId, title := str "Untitled", content := rawContent,
             folder := str "root", createdAt := now, updatedAt := now } := by
  unfold parseNoteContent
  simp [hne, hnofm]

theorem claim_c9_witness :
    (str "plain body" ≠ ([] : Str)) ∧
    parseNoteContent (str "n1") (str "plain body") (str "T0") =
      some { id := str "n1", title := str "Untitled", content := str "plain body",
             folder := str "root", createdAt := str "T0", updatedAt := str "T0" } :=
  ⟨by decide, claim_c9_amended (str "n1") (str "plain body") (str "T0")
    (by decide) (by decide)⟩

/-- Claim C10 counterexample: with a supplied limit of zero (falsy in
JavaScript) the search does not return at most zero results: the zero falls
back to the default of 20 and one result comes back. -/
theorem claim_c10_cex :
    cexOptions10.limit = some 0 ∧
    ¬ (search rawW10 (str "a") cexOptions10).length ≤ 0 := by
  decide

/-- Claim C10 (amended): search returns at most options.limit results when
the supplied limit is a positive number and at most 20 results when the limit
is absent or zero (zero is falsy and falls back to the default, which is what
the counterexample forces the claim to concede); and whenever every raw index
id is a colon-free type tag, a colon, and a colon-free entity key — which
holds for every id the index builder constructs — each returned result id is
exactly that key, the type prefix removed. -/
theorem claim_c10_amended (rawSearch : Str → List RawResult) (query : Str)
    (o : SearchOptions)
    (hids : ∀ r ∈ rawSearch query, validRawId r.id) :
    (search rawSearch query o).length ≤ effLimit o ∧
    ∀ out ∈ search rawSearch query o, ∃ t k, (':' ∉ t) ∧ (':' ∉ k) ∧
      (∃ r ∈ rawSearch query, r.id = t ++ ':' :: k) ∧ out.id = some k := by
  unfold search
  by_cases hq : jsTrim query = []
  · simp [hq]
  · rw [if_neg hq]
    constructor
    · exact length_take_map_le toSearchResult _ _
    · intro out hout
      rw [List.mem_map] at hout
      obtain ⟨r, hrtake, hfr⟩ := hout
      have hrfil := List.take_subset _ _ hrtake
      have hraw : r ∈ rawSearch query :=
        mem_applyFilter (mem_applyFilter (mem_applyFilter hrfil))
      obtain ⟨t, k, h1, h2, h3⟩ := hids r hraw
      refine ⟨t, k, h1, h2, ⟨r, hraw, h3⟩, ?_⟩
      rw [← hfr]
      show (splitOnChar ':' r.id).get? 1 = some k
      rw [h3]
      exact splitOnChar_get_one h1 h2

theorem claim_c10_witness :
    (∀ r ∈ rawW10 (str "a"), validRawId r.id) ∧
    ((search rawW10 (str "a") { limit := some 3 }).length ≤
        effLimit { limit := some 3 } ∧
      ∀ out ∈ search rawW10 (str "a") { limit := some 3 },
        ∃ t k, (':' ∉ t) ∧ (':' ∉ k) ∧
          (∃ r ∈ rawW10 (str "a"), r.id = t ++ ':' :: k) ∧ out.id = some k) := by
  have hids : ∀ r ∈ rawW10 (str "a"), validRawId r.id := by
    intro r hr
    have : r = w10raw := by simpa [rawW10] using hr
    subst this
    exact ⟨str "note", str "abc", by decide, by decide, by decide⟩
  exact ⟨hids, claim_c10_amended rawW10 (str "a") { limit := some 3 } hids⟩

/-- Claim C2 counterexample: for a dirty date whose in-memory content is
empty (the user deleted the whole entry text and the deletion is not yet
flushed), refreshSingleEntry skips the fetch but returns null rather than the
current in-memory value, because of the falsy content-or-null fallback. -/
theorem claim_c2_cex :
    (refreshSingleEntry emptyDirtyState (str "2024-01-15")
        (str "N") remoteAllOk).2.1 ≠
      (lookupA emptyDirtyState.journalEntries
          (str "2024-01-15")).map JournalEntry.content := by
  decide

/-- Claim C2 (amended): for every dirty key, the refresh skips the remote
fetch entirely and leaves the whole state, including the original snapshot
baseline, unmodified; refreshSingleEntry returns the in-memory content
whenever that content is nonempty (empty content and a missing entry come
back as null instead of the in-memory value), and refreshTasks returns the
in-memory task list unchanged. -/
theorem claim_c2_amended (s : AppState) (date now : Str) (remote : Remote)
    (hauth : s.isAuthenticated = true) (hdemo : s.isDemo = false)
    (hdirty : date ∈ s.dirtyJournals) :
    (refreshSingleEntry s date now remote).1 = s ∧
    (refreshSingleEntry s date now remote).2.2 = [] ∧
    (∀ e, lookupA s.journalEntries date = some e → e.content ≠ [] →
      (refreshSingleEntry s date now remote).2.1 = some e.content) ∧
    (s.tasksDirty = true → refreshTasks s remote = (s, some s.tasks, [])) := by
  refine ⟨?_, ?_, ?_, ?_⟩
  · simp [refreshSingleEntry, hauth, hdemo, hdirty]
  · simp [refreshSingleEntry, hauth, hdemo, hdirty]
  · intro e he hne
    simp [refreshSingleEntry, hauth, hdemo, hdirty, he, hne]
  · intro htd
    simp [refreshTasks, hauth, hdemo, htd]

theorem claim_c2_witness :
    oneDirtyState.isAuthenticated = true ∧ oneDirtyState.isDemo = false ∧
    str "2024-01-15" ∈ oneDirtyState.dirtyJournals ∧
    ((refreshSingleEntry oneDirtyState (str "2024-01-15") (str "N")
        remoteAllOk).1 = oneDirtyState ∧
      (refreshSingleEntry oneDirtyState (str "2024-01-15") (str "N")
        remoteAllOk).2.2 = [] ∧
      (∀ e, lookupA oneDirtyState.journalEntries (str "2024-01-15") = some e →
        e.content ≠ [] →
        (refreshSingleEntry oneDirtyState (str "2024-01-15") (str "N")
            remoteAllOk).2.1 = some e.content) ∧
      (oneDirtyState.tasksDirty = true →
        refreshTasks oneDirtyState remoteAllOk =
          (oneDirtyState, some oneDirtyState.tasks, []))) :=
  ⟨by decide, by decide, by decide,
   claim_c2_amended oneDirtyState (str "2024-01-15") (str "N") remoteAllOk
     (by decide) (by decide) (by decide)⟩

/-- Claim C6 (P2, no-op suppression, confirmed): an update whose value is
identical to the stored original snapshot never marks the entity dirty and
never schedules a network write: updateJournalEntry leaves the dirty set and
the per-date timers untouched, and syncTasksToDriver with a list serializing
to the snapshot is a complete no-op on the state. -/
theorem claim_c6_noop (s : AppState) (date content now : Str) (ts : List Task)
    (hj : lookupA s.originalJournalContent date = some content)
    (ht : s.originalTasks = some (stringifyTasks ts)) :
    (updateJournalEntry s date content now).dirtyJournals = s.dirtyJournals ∧
    (updateJournalEntry s date content now).journalTimers = s.journalTimers ∧
    syncTasksToDriver s ts = s := by
  refine ⟨?_, ?_, ?_⟩
  · simp [updateJournalEntry, hj]
  · simp [updateJournalEntry, hj]
  · simp [syncTasksToDriver, ht]

theorem claim_c6_witness :
    lookupA snapState.originalJournalContent (str "2024-01-15") =
      some (str "same text") ∧
    snapState.originalTasks =
      some (stringifyTasks [mkNewTask buyMilk (str "1") (str "T0")]) ∧
    ((updateJournalEntry snapState (str "2024-01-15") (str "same text")
        (str "N")).dirtyJournals = snapState.dirtyJournals ∧
      (updateJournalEntry snapState (str "2024-01-15") (str "same text")
        (str "N")).journalTimers = snapState.journalTimers ∧
      syncTasksToDriver snapState [mkNewTask buyMilk (str "1") (str "T0")] =
        snapState) :=
  ⟨by decide, by decide,
   claim_c6_noop snapState (str "2024-01-15") (str "same text") (str "N")
     [mkNewTask buyMilk (str "1") (str "T0")] (by decide) (by decide)⟩

/-- Claim C7 counterexample: a demo identity creating a task does get the
tasks dirty flag raised, since syncTasksToDriver never checks for demo mode
and the early return of saveTasksToDrive never clears it; the claim demands
that it stay false. -/
theorem claim_c7_cex :
    demoState.isDemo = true ∧
    (addTask demoState buyMilk (str "1700000000000") (str "T1")).tasksDirty =
      true := by
  decide

/-- Claim C7 (amended): when the user is a demo identity, creating a task
adds it to the in-memory task list and no remote call is attempted, neither
immediately nor when the scheduled debounce save fires (saveTasksToDrive
returns before reaching the drive); but the dirty flag is raised whenever the
new serialization differs from the original snapshot, rather than staying
false. -/
theorem claim_c7_amended (s : AppState) (input : TaskInput) (nowId nowIso : Str)
    (remote : Remote)
    (hdemo : s.isDemo = true)
    (hchanged : some (stringifyTasks (mkNewTask input nowId nowIso :: s.tasks)) ≠
      s.originalTasks) :
    (addTask s input nowId nowIso).tasks = mkNewTask input nowId nowIso :: s.tasks ∧
    (addTask s input nowId nowIso).tasksDirty = true ∧
    (fireTasksTimer (addTask s input nowId nowIso) remote).2 = [] := by
  have h1 : addTask s input nowId nowIso =
      { s with tasks := mkNewTask input nowId nowIso :: s.tasks,
               tasksDirty := true, syncStatus := SyncStatus.syncing,
               tasksTimer := some (mkNewTask input nowId nowIso :: s.tasks) } := by
    unfold addTask syncTasksToDriver
    simp only []
    rw [if_neg hchanged]
  rw [h1]
  refine ⟨rfl, rfl, ?_⟩
  simp [fireTasksTimer, saveTasksToDrive, hdemo]

theorem claim_c7_witness :
    demoState.isDemo = true ∧
    some (stringifyTasks (mkNewTask buyMilk (str "2") (str "T2") ::
        demoState.tasks)) ≠ demoState.originalTasks ∧
    ((addTask demoState buyMilk (str "2") (str "T2")).tasks =
        mkNewTask buyMilk (str "2") (str "T2") :: demoState.tasks ∧
      (addTask demoState buyMilk (str "2") (str "T2")).tasksDirty = true ∧
      (fireTasksTimer (addTask demoState buyMilk (str "2") (str "T2"))
          remoteAllOk).2 = []) :=
  ⟨by decide, by decide,
   claim_c7_amended demoState buyMilk (str "2") (str "T2") remoteAllOk
     (by decide) (by decide)⟩

/-- Claim C4 counterexample: with two dirty journal dates and dirty tasks and
a remote whose saves fail, forceSync attempts only the first entity: the call
log holds a single save, the second dirty date and the task list are never
attempted, every dirty marker stays set, and the single error status is the
only report — not an aggregate failure after continuing through the rest. -/
theorem claim_c4_cex :
    (forceSync twoDirtyState remoteSavesFail).2 =
      [RemoteCall.saveJournalCall (str "2024-01-15") (str "A text")] ∧
    (forceSync twoDirtyState remoteSavesFail).1.dirtyJournals =
      twoDirtyState.dirtyJournals ∧
    (forceSync twoDirtyState remoteSavesFail).1.tasksDirty = true ∧
    (forceSync twoDirtyState remoteSavesFail).1.syncStatus = SyncStatus.error := by
  decide

/-- Claim C4 (amended): when the persist of the first dirty entity fails
during forceSync, the engine does not continue: the failed save is the only
attempted remote call, the remaining dirty journals and the task list are not
attempted, all dirty markers are left set, the original snapshots are left
unchanged, and the only report is the error sync status. -/
theorem claim_c4_amended (s : AppState) (remote : Remote) (d0 : Str)
    (rest : List Str) (e0 : JournalEntry) (msg : Str)
    (hauth : s.isAuthenticated = true) (hdemo : s.isDemo = false)
    (hdl : s.dirtyJournals = d0 :: rest)
    (hl : lookupA s.journalEntries d0 = some e0)
    (hfail : remote.saveJournal d0 e0.content = Except.error msg) :
    (forceSync s remote).2 = [RemoteCall.saveJournalCall d0 e0.content] ∧
    (forceSync s remote).1.dirtyJournals = s.dirtyJournals ∧
    (forceSync s remote).1.tasksDirty = s.tasksDirty ∧
    (forceSync s remote).1.originalJournalContent = s.originalJournalContent ∧
    (forceSync s remote).1.syncStatus = SyncStatus.error := by
  have hguard : (!s.isAuthenticated || s.isDemo) = false := by
    rw [hauth, hdemo]; rfl
  have hloop : forceSyncJournals remote s.journalEntries s.dirtyJournals
      s.originalJournalContent =
      (s.originalJournalContent,
       [RemoteCall.saveJournalCall d0 e0.content], some msg) := by
    rw [hdl]
    simp only [forceSyncJournals, hl, hfail]
  simp [forceSync, hguard, hloop]

theorem claim_c4_witness :
    oneDirtyState.isAuthenticated = true ∧ oneDirtyState.isDemo = false ∧
    oneDirtyState.dirtyJournals = str "2024-01-15" :: [] ∧
    lookupA oneDirtyState.journalEntries (str "2024-01-15") =
      some { date := str "2024-01-15", content := str "A text",
             lastModified := str "M" } ∧
    remoteSavesFail.saveJournal (str "2024-01-15") (str "A text") =
      Except.error (str "network") ∧
    ((forceSync oneDirtyState remoteSavesFail).2 =
        [RemoteCall.saveJournalCall (str "2024-01-15") (str "A text")] ∧
      (forceSync oneDirtyState remoteSavesFail).1.dirtyJournals =
        oneDirtyState.dirtyJournals ∧
      (forceSync oneDirtyState remoteSavesFail).1.tasksDirty =
        oneDirtyState.tasksDirty ∧
      (forceSync oneDirtyState remoteSavesFail).1.originalJournalContent =
        oneDirtyState.originalJournalContent ∧
      (forceSync oneDirtyState remoteSavesFail).1.syncStatus =
        SyncStatus.error) :=
  ⟨by decide, by decide, by decide, by decide, rfl,
   claim_c4_amended oneDirtyState remoteSavesFail (str "2024-01-15") []
     { date := str "2024-01-15", content := str "A text", lastModified := str "M" }
     (str "network") (by decide) (by decide) (by decide) (by decide) rfl⟩

/-- Claim C5 (P5, confirmed): after a forceSync in which every individual
save succeeds, for an authenticated non-demo user, the dirty journal set is
empty, the tasks dirty flag is false, the status is synced, the original
snapshot of every previously dirty date with an entry equals that entry's
current in-memory content, and when the tasks were dirty the tasks snapshot
equals the serialization of the current task list. -/
theorem claim_c5_force_sync (s : AppState) (remote : Remote)
    (hauth : s.isAuthenticated = true) (hdemo : s.isDemo = false)
    (hnd : s.dirtyJournals.Nodup)
    (hok : ∀ d e, d ∈ s.dirtyJournals → lookupA s.journalEntries d = some e →
      remote.saveJournal d e.content = Except.ok ())
    (htok : s.tasksDirty = true → remote.saveTasks s.tasks = Except.ok ()) :
    (forceSync s remote).1.dirtyJournals = [] ∧
    (forceSync s remote).1.tasksDirty = false ∧
    (forceSync s remote).1.syncStatus = SyncStatus.synced ∧
    (∀ d e, d ∈ s.dirtyJournals → lookupA s.journalEntries d = some e →
      lookupA (forceSync s remote).1.originalJournalContent d = some e.content) ∧
    (s.tasksDirty = true →
      (forceSync s remote).1.originalTasks = some (stringifyTasks s.tasks)) := by
  have hguard : (!s.isAuthenticated || s.isDemo) = false := by
    rw [hauth, hdemo]; rfl
  obtain ⟨hnone, hlook⟩ := forceSyncJournals_ok remote s.journalEntries
    s.dirtyJournals s.originalJournalContent hok hnd
  rcases hr : forceSyncJournals remote s.journalEntries s.dirtyJournals
      s.originalJournalContent with ⟨orig2, log, errOpt⟩
  rw [hr] at hnone hlook
  simp only [] at hnone
  subst hnone
  cases htd : s.tasksDirty with
  | true =>
    have hst := htok htd
    refine ⟨?_, ?_, ?_, ?_, ?_⟩
    · simp [forceSync, hguard, hr, htd, hst]
    · simp [forceSync, hguard, hr, htd, hst]
    · simp [forceSync, hguard, hr, htd, hst]
    · intro d e hd he
      simpa [forceSync, hguard, hr, htd, hst] using hlook d e hd he
    · intro _
      simp [forceSync, hguard, hr, htd, hst]
  | false =>
    refine ⟨?_, ?_, ?_, ?_, ?_⟩
    · simp [forceSync, hguard, hr, htd]
    · simp [forceSync, hguard, hr, htd]
    · simp [forceSync, hguard, hr, htd]
    · intro d e hd he
      simpa [forceSync, hguard, hr, htd] using hlook d e hd he
    · intro hcontra
      simp at hcontra

theorem claim_c5_witness :
    oneDirtyState.isAuthenticated = true ∧ oneDirtyState.isDemo = false ∧
    oneDirtyState.dirtyJournals.Nodup ∧
    ((forceSync oneDirtyState remoteAllOk).1.dirtyJournals = [] ∧
      (forceSync oneDirtyState remoteAllOk).1.tasksDirty = false ∧
      (forceSync oneDirtyState remoteAllOk).1.syncStatus = SyncStatus.synced ∧
      (∀ d e, d ∈ oneDirtyState.dirtyJournals →
        lookupA oneDirtyState.journalEntries d = some e →
        lookupA (forceSync oneDirtyState remoteAllOk).1.originalJournalContent d =
          some e.content) ∧
      (oneDirtyState.tasksDirty = true →
        (forceSync oneDirtyState remoteAllOk).1.originalTasks =
          some (stringifyTasks oneDirtyState.tasks))) :=
  ⟨by decide, by decide, by decide,
   claim_c5_force_sync oneDirtyState remoteAllOk (by decide) (by decide)
     (by decide) (fun _ _ _ _ => rfl) (fun _ => rfl)⟩

/-- Claim C8 (confirmed): loadDataFromDrive always ends with dataLoaded true
for an authenticated non-demo session not yet loaded — so a failure partway
through hydration still marks the session loaded while surfacing the error
(syncError becomes some message and syncStatus becomes error; the only other
outcome is full success with status synced) — and a session already marked
loaded is returned untouched, so hydration is not retried. -/
theorem claim_c8_hydration (s : AppState) (remote : Remote)
    (hauth : s.isAuthenticated = true) (hdemo : s.isDemo = false)
    (hnl : s.dataLoaded = false) :
    (loadDataFromDrive s remote).dataLoaded = true ∧
    ((loadDataFromDrive s remote).syncStatus = SyncStatus.synced ∨
      ((loadDataFromDrive s remote).syncStatus = SyncStatus.error ∧
        (loadDataFromDrive s remote).syncError.isSome = true)) ∧
    (∀ s2 remote2, s2.dataLoaded = true → loadDataFromDrive s2 remote2 = s2) := by
  have hguard : (!s.isAuthenticated || s.isDemo || s.dataLoaded) = false := by
    rw [hauth, hdemo, hnl]; rfl
  have hretry : ∀ s2 remote2, s2.dataLoaded = true →
      loadDataFromDrive s2 remote2 = s2 := by
    intro s2 remote2 h2
    simp [loadDataFromDrive, h2]
  have hmain : (loadDataFromDrive s remote).dataLoaded = true ∧
      ((loadDataFromDrive s remote).syncStatus = SyncStatus.synced ∨
        ((loadDataFromDrive s remote).syncStatus = SyncStatus.error ∧
          (loadDataFromDrive s remote).syncError.isSome = true)) := by
    unfold loadDataFromDrive
    rw [hguard]
    simp only [Bool.false_eq_true, if_false]
    cases hi : remote.initFolders with
    | error e => simp [hydrateFail]
    | ok u =>
      cases hj : remote.listJournals with
      | error e => simp [hydrateFail]
      | ok entries =>
        rcases hloop : hydrateJournalsLoop remote entries []
            s.originalJournalContent with ⟨jd, or2, errOpt⟩
        cases errOpt with
        | some e => simp [hloop, hydrateFail]
        | none =>
          cases ht : remote.loadTasks with
          | error e => simp [hloop, hydrateFail]
          | ok tOpt =>
            cases hn : remote.listNotes with
            | error e => simp [hloop, hydrateFail]
            | ok notesData => simp [hloop]
  exact ⟨hmain.1, hmain.2, hretry⟩

theorem claim_c8_witness :
    baseState.isAuthenticated = true ∧ baseState.isDemo = false ∧
    baseState.dataLoaded = false ∧
    ((loadDataFromDrive baseState remoteAllOk).dataLoaded = true ∧
      ((loadDataFromDrive baseState remoteAllOk).syncStatus = SyncStatus.synced ∨
        ((loadDataFromDrive baseState remoteAllOk).syncStatus = SyncStatus.error ∧
          (loadDataFromDrive baseState remoteAllOk).syncError.isSome = true)) ∧
      (∀ s2 remote2, s2.dataLoaded = true → loadDataFromDrive s2 remote2 = s2)) :=
  ⟨by decide, by decide, by decide,
   claim_c8_hydration baseState remoteAllOk (by decide) (by decide) (by decide)⟩

theorem isPrefixOf_append_self (a b : Str) : a.isPrefixOf (a ++ b) = true :=
  List.isPrefixOf_iff_prefix.mpr (List.prefix_append a b)

theorem isPrefixOf_cons_false {a c : Char} {p s : Str} (h : a ≠ c) :
    ((a :: p).isPrefixOf (c :: s)) = false := by
  simp [List.isPrefixOf, h]

theorem suffix_append_cases {x u v : Str} (h : x <:+ u ++ v) :
    x <:+ v ∨ ∃ u2, u2 <:+ u ∧ u2 ≠ [] ∧ x = u2 ++ v := by
  induction u with
  | nil => exact Or.inl (by simpa using h)
  | cons a u2 ih =>
    rcases List.suffix_cons_iff.mp (by simpa using h) with he | hs
    · exact Or.inr ⟨a :: u2, List.suffix_refl _, by simp, by simpa using he⟩
    · rcases ih hs with h1 | ⟨u3, hu3, hne, heq⟩
      · exact Or.inl h1
      · exact Or.inr ⟨u3, hu3.trans (List.suffix_cons _ _), hne, heq⟩

theorem wfFieldB_ne_nil {f : Str} (h : wfFieldB f = true) : f ≠ [] := by
  intro he
  subst he
  simp [wfFieldB] at h

theorem wfFieldB_head {f : Str} (h : wfFieldB f = true) :
    ∃ c t, f = c :: t ∧ isJsSpace c = false := by
  cases f with
  | nil => simp [wfFieldB] at h
  | cons c t =>
    refine ⟨c, t, rfl, ?_⟩
    unfold wfFieldB at h
    rw [Bool.and_eq_true, Bool.and_eq_true] at h
    simpa using h.1.1

theorem wfFieldB_no_newline {f : Str} (h : wfFieldB f = true) : '\n' ∉ f := by
  intro hm
  unfold wfFieldB at h
  rw [Bool.and_eq_true, Bool.and_eq_true] at h
  have := List.all_eq_true.mp h.1.2 '\n' hm
  simp at this

theorem wfFieldB_last {f : Str} (h : wfFieldB f = true) :
    ∀ c, f.getLast? = some c → isJsSpace c = false := by
  intro c hc
  unfold wfFieldB at h
  rw [Bool.and_eq_true, Bool.and_eq_true] at h
  have h3 := h.2
  rw [hc] at h3
  simpa using h3

theorem splitFirstOcc_self (pat y : Str) (hpat : pat ≠ []) :
    splitFirstOcc pat (pat ++ y) = some ([], y) := by
  obtain ⟨p0, prest, rfl⟩ := List.exists_cons_of_ne_nil hpat
  rw [List.cons_append]
  unfold splitFirstOcc
  rw [if_pos ?hpos]
  case hpos =>
    rw [← List.cons_append]
    exact isPrefixOf_append_self _ _
  rw [← List.cons_append, List.drop_left]

theorem splitFirstOcc_exact (pat y : Str) (hpat : pat ≠ []) :
    ∀ x : Str,
      (∀ x2, x2 <:+ x → x2 ≠ [] → pat.isPrefixOf (x2 ++ pat ++ y) = false) →
      splitFirstOcc pat (x ++ pat ++ y) = some (x, y) := by
  intro x
  induction x with
  | nil =>
    intro _
    simpa using splitFirstOcc_self pat y hpat
  | cons ch x2 ih =>
    intro hno
    have hx : (ch :: x2) ++ pat ++ y = ch :: (x2 ++ pat ++ y) := by simp
    rw [hx]
    unfold splitFirstOcc
    rw [if_neg ?hneg]
    case hneg =>
      have hfalse := hno (ch :: x2) (List.suffix_refl _) (by simp)
      rw [hx] at hfalse
      intro hcontra
      rw [hfalse] at hcontra
      cases hcontra
    rw [ih fun x3 hx3 hne3 =>
      hno x3 (hx3.trans (List.suffix_cons _ _)) hne3]
    rfl

theorem headerClose_ne_nil : headerClose ≠ [] := by decide

theorem headerClose_not_prefix_of_cons {c : Char} {z y : Str} (hc : c ≠ '\n') :
    headerClose.isPrefixOf ((c :: z) ++ headerClose ++ y) = false := by
  show (('\n' :: str "---\n").isPrefixOf
    (c :: (z ++ headerClose ++ y))) = false
  exact isPrefixOf_cons_false (fun h => hc h.symm)

theorem headerClose_not_prefix_newline {z y : Str}
    (hz : ∀ d z2, z = d :: z2 → d ≠ '-') :
    headerClose.isPrefixOf (('\n' :: z) ++ headerClose ++ y) = false := by
  cases z with
  | nil =>
    show (('\n' :: ('-' :: str "--\n")).isPrefixOf
      ('\n' :: ('\n' :: (str "---\n" ++ y)))) = false
    simp [List.isPrefixOf]
  | cons d z2 =>
    have hd : d ≠ '-' := hz d z2 rfl
    have hd2 : ('-' == d) = false :=
      beq_eq_false_iff_ne.mpr (fun h => hd h.symm)
    show (('\n' :: ('-' :: str "--\n")).isPrefixOf
      ('\n' :: (d :: (z2 ++ headerClose ++ y)))) = false
    simp [List.isPrefixOf, hd2]

theorem no_early_base {blk y : Str} (hblk : '\n' ∉ blk) :
    ∀ x2, x2 <:+ blk → x2 ≠ [] →
      headerClose.isPrefixOf (x2 ++ headerClose ++ y) = false := by
  intro x2 hsfx hne
  obtain ⟨c, z, rfl⟩ := List.exists_cons_of_ne_nil hne
  have hcmem : c ∈ blk := hsfx.subset (by simp)
  exact headerClose_not_prefix_of_cons (fun e => hblk (e ▸ hcmem))

theorem cons_head_ne {a b : Char} {w z : Str} (hne : a ≠ b)
    (he : a :: w = b :: z) : False := by
  injection he with h1 _
  exact hne h1

theorem no_early_step {blk rest y : Str} (hblk : '\n' ∉ blk)
    (hrest : ∀ x2, x2 <:+ rest → x2 ≠ [] →
      headerClose.isPrefixOf (x2 ++ headerClose ++ y) = false)
    (hrhead : ∀ d z2, rest = d :: z2 → d ≠ '-') :
    ∀ x2, x2 <:+ blk ++ '\n' :: rest → x2 ≠ [] →
      headerClose.isPrefixOf (x2 ++ headerClose ++ y) = false := by
  intro x2 hsfx hne
  rcases suffix_append_cases hsfx with h1 | ⟨u2, hu2, hu2ne, rfl⟩
  · rcases List.suffix_cons_iff.mp h1 with rfl | h2
    · exact headerClose_not_prefix_newline hrhead
    · exact hrest x2 h2 hne
  · obtain ⟨c, z, rfl⟩ := List.exists_cons_of_ne_nil hu2ne
    have hcmem : c ∈ blk := hu2.subset (by simp)
    have hcne : c ≠ '\n' := fun e => hblk (e ▸ hcmem)
    show headerClose.isPrefixOf
      ((c :: (z ++ '\n' :: rest)) ++ headerClose ++ y) = false
    exact headerClose_not_prefix_of_cons hcne

theorem str_nfolder : str "\nfolder: " = '\n' :: str "folder: " := rfl

theorem str_ncreated : str "\ncreatedAt: " = '\n' :: str "createdAt: " := rfl

theorem str_nupdated : str "\nupdatedAt: " = '\n' :: str "updatedAt: " := rfl

theorem fmOf_shape (t f c u : Str) :
    fmOf t f c u =
      (str "title: " ++ t) ++ '\n' ::
        ((str "folder: " ++ f) ++ '\n' ::
          ((str "createdAt: " ++ c) ++ '\n' :: (str "updatedAt: " ++ u))) := by
  unfold fmOf
  rw [str_nfolder, str_ncreated, str_nupdated]
  simp [List.append_assoc]

theorem fm_no_early {t f c u : Str} (y : Str)
    (ht : '\n' ∉ t) (hf : '\n' ∉ f) (hc : '\n' ∉ c) (hu : '\n' ∉ u) :
    ∀ x2, x2 <:+ fmOf t f c u → x2 ≠ [] →
      headerClose.isPrefixOf (x2 ++ headerClose ++ y) = false := by
  rw [fmOf_shape]
  have hA : '\n' ∉ str "title: " ++ t := by
    intro hm
    rcases List.mem_append.mp hm with h1 | h2
    · exact absurd h1 (by decide)
    · exact ht h2
  have hB : '\n' ∉ str "folder: " ++ f := by
    intro hm
    rcases List.mem_append.mp hm with h1 | h2
    · exact absurd h1 (by decide)
    · exact hf h2
  have hC : '\n' ∉ str "createdAt: " ++ c := by
    intro hm
    rcases List.mem_append.mp hm with h1 | h2
    · exact absurd h1 (by decide)
    · exact hc h2
  have hD : '\n' ∉ str "updatedAt: " ++ u := by
    intro hm
    rcases List.mem_append.mp hm with h1 | h2
    · exact absurd h1 (by decide)
    · exact hu h2
  refine no_early_step hA ?_ ?_
  · refine no_early_step hB ?_ ?_
    · refine no_early_step hC ?_ ?_
      · exact no_early_base hD
      · intro d z2 he hd
        subst hd
        exact cons_head_ne (by decide)
          (show 'u' :: (str "pdatedAt: " ++ u) = '-' :: z2 from he)
    · intro d z2 he hd
      subst hd
      exact cons_head_ne (by decide)
        (show 'c' :: (str "reatedAt: " ++ c ++
          '\n' :: (str "updatedAt: " ++ u)) = '-' :: z2 from he)
  · intro d z2 he hd
    subst hd
    exact cons_head_ne (by decide)
      (show 'f' :: (str "older: " ++ f ++
        '\n' :: ((str "createdAt: " ++ c) ++
          '\n' :: (str "updatedAt: " ++ u))) = '-' :: z2 from he)

theorem frontmatterMatch_fm (t f c u body : Str)
    (ht : '\n' ∉ t) (hf : '\n' ∉ f) (hc : '\n' ∉ c) (hu : '\n' ∉ u) :
    frontmatterMatch (headerOpen ++ fmOf t f c u ++ str "\n---\n\n" ++ body) =
      some (fmOf t f c u, body) := by
  have hassoc : headerOpen ++ fmOf t f c u ++ str "\n---\n\n" ++ body =
      headerOpen ++ (fmOf t f c u ++ headerClose ++ ('\n' :: body)) := by
    rw [show str "\n---\n\n" = headerClose ++ ['\n'] from rfl]
    simp [List.append_assoc]
  rw [hassoc]
  unfold frontmatterMatch
  rw [if_pos (isPrefixOf_append_self _ _)]
  rw [show (headerOpen ++ (fmOf t f c u ++ headerClose ++ ('\n' :: body))).drop 4 =
      fmOf t f c u ++ headerClose ++ ('\n' :: body) from by
    rw [show 4 = headerOpen.length from rfl, List.drop_left]]
  rw [splitFirstOcc_exact headerClose ('\n' :: body) headerClose_ne_nil
    (fmOf t f c u) (fm_no_early ('\n' :: body) ht hf hc hu)]
  rfl

theorem notMemAppend {c : Char} {a b : Str} (ha : c ∉ a) (hb : c ∉ b) :
    c ∉ a ++ b := by
  intro hm
  rcases List.mem_append.mp hm with h | h
  · exact ha h
  · exact hb h

theorem dropWhile_eq_self_of_head {p : Char → Bool} {l : Str}
    (h : ∀ c t, l = c :: t → p c = false) : l.dropWhile p = l := by
  cases l with
  | nil => rfl
  | cons c t => simp [List.dropWhile_cons, h c t rfl]

theorem takeWhile_append_cons {p : Char → Bool} {u v : Str} {c : Char}
    (hu : ∀ x ∈ u, p x = true) (hc : p c = false) :
    (u ++ c :: v).takeWhile p = u := by
  induction u with
  | nil => simp [List.takeWhile_cons, hc]
  | cons a u2 ih =>
    have ha := hu a (by simp)
    simp [List.takeWhile_cons, ha, ih (fun x hx => hu x (by simp [hx]))]

theorem takeWhile_all {p : Char → Bool} {u : Str} (hu : ∀ x ∈ u, p x = true) :
    u.takeWhile p = u := by
  induction u with
  | nil => rfl
  | cons a u2 ih =>
    simp [List.takeWhile_cons, hu a (by simp),
      ih (fun x hx => hu x (by simp [hx]))]

theorem jsTrim_eq_self {f : Str} (hw : wfFieldB f = true) : jsTrim f = f := by
  obtain ⟨c0, t0, hv, hc0⟩ := wfFieldB_head hw
  have h1 : f.dropWhile isJsSpace = f := by
    refine dropWhile_eq_self_of_head ?_
    intro c t he
    rw [hv] at he
    injection he with e1 _
    rw [← e1]
    exact hc0
  have h2 : f.reverse.dropWhile isJsSpace = f.reverse := by
    refine dropWhile_eq_self_of_head ?_
    intro c t he
    have hh : f.reverse.head? = some c := by rw [he]; rfl
    rw [List.head?_reverse] at hh
    exact wfFieldB_last hw c hh
  unfold jsTrim
  rw [h1, h2, List.reverse_reverse]

theorem value_extract {v rest2 : Str} (hwv : wfFieldB v = true) :
    jsTrim (((' ' :: (v ++ '\n' :: rest2)).dropWhile isJsSpace).takeWhile
      fun c => c != '\n') = v := by
  obtain ⟨c0, t0, hv, hc0⟩ := wfFieldB_head hwv
  have h1 : (' ' :: (v ++ '\n' :: rest2)).dropWhile isJsSpace =
      (v ++ '\n' :: rest2).dropWhile isJsSpace := by
    simp [List.dropWhile_cons, isJsSpace]
  have h2 : (v ++ '\n' :: rest2).dropWhile isJsSpace = v ++ '\n' :: rest2 := by
    rw [hv]
    simp [List.dropWhile_cons, hc0]
  have h3 : (v ++ '\n' :: rest2).takeWhile (fun c => c != '\n') = v := by
    refine takeWhile_append_cons ?_ (by simp)
    intro x hx
    have hxne : x ≠ '\n' := fun e => (wfFieldB_no_newline hwv) (e ▸ hx)
    simp [hxne]
  rw [h1, h2, h3, jsTrim_eq_self hwv]

theorem value_extract_last {v : Str} (hwv : wfFieldB v = true) :
    jsTrim (((' ' :: v).dropWhile isJsSpace).takeWhile fun c => c != '\n') = v := by
  obtain ⟨c0, t0, hv, hc0⟩ := wfFieldB_head hwv
  have h1 : (' ' :: v).dropWhile isJsSpace = v.dropWhile isJsSpace := by
    simp [List.dropWhile_cons, isJsSpace]
  have h2 : v.dropWhile isJsSpace = v := by
    refine dropWhile_eq_self_of_head ?_
    intro c t he
    rw [hv] at he
    injection he with e1 _
    rw [← e1]
    exact hc0
  have h3 : v.takeWhile (fun c => c != '\n') = v := by
    refine takeWhile_all ?_
    intro x hx
    have hxne : x ≠ '\n' := fun e => (wfFieldB_no_newline hwv) (e ▸ hx)
    simp [hxne]
  rw [h1, h2, h3, jsTrim_eq_self hwv]

theorem findAfterNewline_append {k u v : Str} (hu : '\n' ∉ u) :
    findAfterNewline k (u ++ v) = findAfterNewline k v := by
  induction u with
  | nil => rfl
  | cons a u2 ih =>
    have ha : a ≠ '\n' := fun e => hu (by simp [e])
    have hu2 : '\n' ∉ u2 := fun hm => hu (List.mem_cons_of_mem _ hm)
    simp [findAfterNewline, ha, ih hu2]

theorem findAfterNewline_hit {k rest : Str} (h : k.isPrefixOf rest = true) :
    findAfterNewline k ('\n' :: rest) = some (rest.drop k.length) := by
  simp [findAfterNewline, h]

theorem findAfterNewline_miss {k rest : Str} (h : k.isPrefixOf rest = false) :
    findAfterNewline k ('\n' :: rest) = findAfterNewline k rest := by
  simp [findAfterNewline, h]

theorem not_isPrefixOf_of_head_ne {k s : Str} {a b : Char} {k2 s2 : Str}
    (hk : k = a :: k2) (hs : s = b :: s2) (h : a ≠ b) :
    k.isPrefixOf s = false := by
  rw [hk, hs]
  exact isPrefixOf_cons_false h

theorem not_prefix_ne_head {k s : Str} {a b : Char} {k2 s2 : Str}
    (hk : k = a :: k2) (hs : s = b :: s2) (h : a ≠ b) :
    ¬ (k.isPrefixOf s = true) := by
  rw [not_isPrefixOf_of_head_ne hk hs h]
  simp

theorem getValue_fm_title {t f c u : Str} (hwt : wfFieldB t = true) :
    getValue (fmOf t f c u) (str "title") = some t := by
  have hshape : fmOf t f c u =
      str "title:" ++ (' ' :: (t ++ '\n' ::
        ((str "folder: " ++ f) ++ '\n' ::
          ((str "createdAt: " ++ c) ++ '\n' :: (str "updatedAt: " ++ u))))) := by
    rw [fmOf_shape]
    rw [show str "title: " = str "title:" ++ [' '] from rfl]
    simp [List.append_assoc]
  rw [hshape]
  unfold getValue
  rw [if_pos ?hp]
  case hp =>
    rw [show str "title" ++ [':'] = str "title:" from rfl]
    exact isPrefixOf_append_self _ _
  rw [show (str "title" ++ [':']).length = (str "title:").length from rfl,
    List.drop_left, Option.map_some']
  rw [value_extract hwt]

theorem getValue_fm_folder {t f c u : Str} (hwf : wfFieldB f = true)
    (ht : '\n' ∉ t) :
    getValue (fmOf t f c u) (str "folder") = some f := by
  have hshape : fmOf t f c u =
      (str "title: " ++ t) ++ '\n' ::
        (str "folder:" ++ (' ' :: (f ++ '\n' ::
          ((str "createdAt: " ++ c) ++ '\n' :: (str "updatedAt: " ++ u))))) := by
    rw [fmOf_shape]
    rw [show str "folder: " = str "folder:" ++ [' '] from rfl]
    simp [List.append_assoc]
  rw [hshape]
  unfold getValue
  rw [if_neg ?hn]
  case hn => exact not_prefix_ne_head rfl rfl (by decide : 'f' ≠ 't')
  rw [findAfterNewline_append (notMemAppend (by decide) ht)]
  rw [findAfterNewline_hit ?hp]
  case hp =>
    rw [show str "folder" ++ [':'] = str "folder:" from rfl]
    exact isPrefixOf_append_self _ _
  rw [show (str "folder" ++ [':']).length = (str "folder:").length from rfl,
    List.drop_left, Option.map_some']
  rw [value_extract hwf]

theorem getValue_fm_created {t f c u : Str} (hwc : wfFieldB c = true)
    (ht : '\n' ∉ t) (hf : '\n' ∉ f) :
    getValue (fmOf t f c u) (str "createdAt") = some c := by
  have hshape : fmOf t f c u =
      (str "title: " ++ t) ++ '\n' ::
        ((str "folder: " ++ f) ++ '\n' ::
          (str "createdAt:" ++ (' ' :: (c ++ '\n' ::
            (str "updatedAt: " ++ u))))) := by
    rw [fmOf_shape]
    rw [show str "createdAt: " = str "createdAt:" ++ [' '] from rfl]
    simp [List.append_assoc]
  rw [hshape]
  unfold getValue
  rw [if_neg ?hn]
  case hn => exact not_prefix_ne_head rfl rfl (by decide : 'c' ≠ 't')
  rw [findAfterNewline_append (notMemAppend (by decide) ht)]
  have hmiss1 : (str "createdAt" ++ [':']).isPrefixOf
      ((str "folder: " ++ f) ++ '\n' ::
        (str "createdAt:" ++ (' ' :: (c ++ '\n' ::
          (str "updatedAt: " ++ u))))) = false :=
    not_isPrefixOf_of_head_ne rfl rfl (by decide : 'c' ≠ 'f')
  rw [findAfterNewline_miss hmiss1]
  rw [findAfterNewline_append (notMemAppend (by decide) hf)]
  rw [findAfterNewline_hit ?hp]
  case hp =>
    rw [show str "createdAt" ++ [':'] = str "createdAt:" from rfl]
    exact isPrefixOf_append_self _ _
  rw [show (str "createdAt" ++ [':']).length = (str "createdAt:").length from rfl,
    List.drop_left, Option.map_some']
  rw [value_extract hwc]

theorem getValue_fm_updated {t f c u : Str} (hwu : wfFieldB u = true)
    (ht : '\n' ∉ t) (hf : '\n' ∉ f) (hc : '\n' ∉ c) :
    getValue (fmOf t f c u) (str "updatedAt") = some u := by
  have hshape : fmOf t f c u =
      (str "title: " ++ t) ++ '\n' ::
        ((str "folder: " ++ f) ++ '\n' ::
          ((str "createdAt: " ++ c) ++ '\n' ::
            (str "updatedAt:" ++ (' ' :: u)))) := by
    rw [fmOf_shape]
    rw [show str "updatedAt: " = str "updatedAt:" ++ [' '] from rfl]
    simp [List.append_assoc]
  rw [hshape]
  unfold getValue
  rw [if_neg ?hn]
  case hn => exact not_prefix_ne_head rfl rfl (by decide : 'u' ≠ 't')
  rw [findAfterNewline_append (notMemAppend (by decide) ht)]
  have hmiss1 : (str "updatedAt" ++ [':']).isPrefixOf
      ((str "folder: " ++ f) ++ '\n' ::
        ((str "createdAt: " ++ c) ++ '\n' ::
          (str "updatedAt:" ++ (' ' :: u)))) = false :=
    not_isPrefixOf_of_head_ne rfl rfl (by decide : 'u' ≠ 'f')
  rw [findAfterNewline_miss hmiss1]
  rw [findAfterNewline_append (notMemAppend (by decide) hf)]
  have hmiss2 : (str "updatedAt" ++ [':']).isPrefixOf
      ((str "createdAt: " ++ c) ++ '\n' ::
        (str "updatedAt:" ++ (' ' :: u))) = false :=
    not_isPrefixOf_of_head_ne rfl rfl (by decide : 'u' ≠ 'c')
  rw [findAfterNewline_miss hmiss2]
  rw [findAfterNewline_append (notMemAppend (by decide) hc)]
  rw [findAfterNewline_hit ?hp]
  case hp =>
    rw [show str "updatedAt" ++ [':'] = str "updatedAt:" from rfl]
    exact isPrefixOf_append_self _ _
  rw [show (str "updatedAt" ++ [':']).length = (str "updatedAt:").length from rfl,
    List.drop_left, Option.map_some']
  rw [value_extract_last hwu]


theorem fieldOr_some_ne {fm key d v : Str} (h : getValue fm key = some v)
    (hv : v ≠ []) : fieldOr fm key d = v := by
  simp [fieldOr, h, hv]

/-- Claim C3 counterexample: a note whose title is the empty string does not
round-trip. The serialized title line is empty, so the greedy whitespace skip
of the title regex crosses the line end and captures the folder line: the
reparsed title comes back as the text folder colon root, not as the empty
original. -/
theorem claim_c3_cex :
    parseNoteContent (str "n1")
        (serializeNoteContent
          { id := str "n1", title := [], content := str "body",
            folder := str "root", createdAt := str "C1", updatedAt := str "U1" })
        (str "T") ≠
      some { id := str "n1", title := [], content := str "body",
             folder := str "root", createdAt := str "C1", updatedAt := str "U1" } := by
  decide

/-- Claim C3 (amended): serializing a note to the frontmatter wire format and
parsing it back yields a note equal in title, folder, content, createdAt and
updatedAt to the original — including for content that embeds the header
delimiter sequence — provided each header field is well formed: nonempty,
newline free, and neither starting nor ending with whitespace. The
counterexample shows the restriction is necessary: an empty title breaks the
round trip. -/
theorem claim_c3_amended (note : Note) (nid now : Str)
    (hwt : wfFieldB note.title = true) (hwf : wfFieldB note.folder = true)
    (hwc : wfFieldB note.createdAt = true) (hwu : wfFieldB note.updatedAt = true) :
    parseNoteContent nid (serializeNoteContent note) now =
      some { id := nid, title := note.title, content := note.content,
             folder := note.folder, createdAt := note.createdAt,
             updatedAt := note.updatedAt } := by
  have hfol : (if note.folder = [] then str "root" else note.folder) =
      note.folder := if_neg (wfFieldB_ne_nil hwf)
  have hser : serializeNoteContent note =
      headerOpen ++ fmOf note.title note.folder note.createdAt note.updatedAt ++
        str "\n---\n\n" ++ note.content := by
    unfold serializeNoteContent
    rw [hfol]
  have hnt := wfFieldB_no_newline hwt
  have hnf := wfFieldB_no_newline hwf
  have hnc := wfFieldB_no_newline hwc
  have hnu := wfFieldB_no_newline hwu
  have hfm := frontmatterMatch_fm note.title note.folder note.createdAt
    note.updatedAt note.content hnt hnf hnc hnu
  rw [hser]
  unfold parseNoteContent
  rw [if_neg ?hne]
  case hne =>
    intro he
    have h1 := (List.append_eq_nil.mp
      (List.append_eq_nil.mp (List.append_eq_nil.mp he).1).1).1
    exact absurd h1 (by decide)
  rw [hfm]
  simp only []
  rw [fieldOr_some_ne (getValue_fm_title hwt) (wfFieldB_ne_nil hwt),
    fieldOr_some_ne (getValue_fm_folder hwf hnt) (wfFieldB_ne_nil hwf),
    fieldOr_some_ne (getValue_fm_created hwc hnt hnf) (wfFieldB_ne_nil hwc),
    fieldOr_some_ne (getValue_fm_updated hwu hnt hnf hnc) (wfFieldB_ne_nil hwu)]

theorem claim_c3_witness :
    wfFieldB wfNote.title = true ∧ wfFieldB wfNote.folder = true ∧
    wfFieldB wfNote.createdAt = true ∧ wfFieldB wfNote.updatedAt = true ∧
    parseNoteContent (str "n9") (serializeNoteContent wfNote) (str "T") =
      some { id := str "n9", title := wfNote.title, content := wfNote.content,
             folder := wfNote.folder, createdAt := wfNote.createdAt,
             updatedAt := wfNote.updatedAt } :=
  ⟨by decide, by decide, by decide, by decide,
   claim_c3_amended wfNote (str "n9") (str "T") (by decide) (by decide)
     (by decide) (by decide)⟩

end LifeOS
